import Mathlib

/-!
Verification of the geometric ray-surface intersection subsystem of the
xicsrt repository: the local/external coordinate transforms of
`GeometryObject` and the mesh intersection engine of `XicsrtOpticMesh`.

Numpy float arrays are modelled with exact rationals (`ℚ`); the square
roots appearing in `np.linalg.norm` are modelled with `Real.sqrt`.
Arrays of length N are modelled as total functions from `ℕ`, meaningful
on indices below the stored length.
-/

namespace Xicsrt

/-- A 3-vector with rational components, modelling one row of a numpy
`(N, 3)` float array. -/
structure Vec3 where
  x : ℚ
  y : ℚ
  z : ℚ
deriving DecidableEq

namespace Vec3

def zero : Vec3 := ⟨0, 0, 0⟩

instance : Add Vec3 := ⟨fun a b => ⟨a.x + b.x, a.y + b.y, a.z + b.z⟩⟩

instance : Sub Vec3 := ⟨fun a b => ⟨a.x - b.x, a.y - b.y, a.z - b.z⟩⟩

/-- Scalar multiplication of a rational scalar with a 3-vector. -/
def smul (c : ℚ) (v : Vec3) : Vec3 := ⟨c * v.x, c * v.y, c * v.z⟩

/-- Dot product, modelling `np.einsum` contractions over the length-3 axis. -/
def dot (a b : Vec3) : ℚ := a.x * b.x + a.y * b.y + a.z * b.z

/-- Cross product, modelling `np.cross` on 3-vectors. -/
def cross (a b : Vec3) : Vec3 :=
  ⟨a.y * b.z - a.z * b.y, a.z * b.x - a.x * b.z, a.x * b.y - a.y * b.x⟩

/-- Euclidean norm of a rational 3-vector, modelling `np.linalg.norm`
on one row; real-valued because of the square root. -/
noncomputable def rnorm (v : Vec3) : ℝ :=
  Real.sqrt ((v.x : ℝ) ^ 2 + (v.y : ℝ) ^ 2 + (v.z : ℝ) ^ 2)

end Vec3

/-- A ray batch: parallel arrays `origin`, `direction`, `mask` of length
`num`, plus ancillary fields, as produced by the ray-generation
collaborator (`rays['origin']`, `rays['direction']`, `rays['mask']`,
`rays['wavelength']`, `rays['weight']`). -/
structure RayBatch where
  num : ℕ
  origin : ℕ → Vec3
  direction : ℕ → Vec3
  mask : ℕ → Bool
  wavelength : ℕ → ℚ
  weight : ℕ → ℚ

/-- The number of active rays, modelling `np.sum(rays['mask'])`. -/
def activeCount (r : RayBatch) : ℕ :=
  (List.range r.num).countP (fun j => r.mask j)

/-- One triangular face: three indices into the vertex array
(one row of `mesh['faces']`). -/
structure Face where
  i0 : ℕ
  i1 : ℕ
  i2 : ℕ
deriving DecidableEq

/-- A mesh: vertex positions (`mesh['points']`, modelled as a total
function on indices) and the face list (`mesh['faces']`). -/
structure Mesh where
  points : ℕ → Vec3
  faces : List Face

/-- The tolerance `epsilon = 1e-15` of the Möller–Trumbore test. -/
def eps1 : ℚ := 1 / 10 ^ 15

/-- The hard-coded area tolerance `1e-10` of `mesh_intersect_2`. -/
def tol2 : ℚ := 1 / 10 ^ 10

/-- The loop state of `mesh_intersect_1`: the accumulated accepted-set
union `m_temp_2`, the hit-face array `hits` and the hit-point array `X`.
`hits` is created with `np.empty`; its unassigned entries are arbitrary
and are modelled as `0`, never relied upon. -/
structure I1State where
  hitsM : ℕ → Bool
  hits : ℕ → ℕ
  X : ℕ → Vec3

/-- The chained per-ray rejection tests of one face iteration of
`mesh_intersect_1` (source lines 290-309): the ray is dropped from
`m_temp` when the scalar `f` lies strictly between `-epsilon` and
`epsilon`, when `u` falls outside `[0, 1]`, or when `v < 0` or
`u + v > 1`.  The source applies the three `m_temp &= ~(...)` updates
in sequence; conjoining them here is value-equal.  The division
`f = 1.0 / f` is performed even for rays that just failed the epsilon
test (numpy emits a junk quotient that is never used); `(0 : ℚ)⁻¹ = 0`
plays the role of that junk. -/
def i1Accept (O D p0 p1 p2 : Vec3) : Bool :=
  let edge1 := p1 - p0
  let edge2 := p2 - p0
  let h := Vec3.cross D edge2
  let f := Vec3.dot edge1 h
  let finv := f⁻¹
  let u := finv * Vec3.dot (O - p0) h
  let v := finv * Vec3.dot D (Vec3.cross (O - p0) edge1)
  !(decide (f > -eps1) && decide (f < eps1)) &&
    (!(decide (u < 0) || decide (u > 1)) &&
      !(decide (v < 0) || decide (u + v > 1)))

/-- The ray parameter `t = f * np.einsum(edge2, q)` (after `f = 1.0/f`)
of one face iteration of `mesh_intersect_1`. -/
def i1T (O D p0 p1 p2 : Vec3) : ℚ :=
  let edge1 := p1 - p0
  let edge2 := p2 - p0
  let f := Vec3.dot edge1 (Vec3.cross D edge2)
  f⁻¹ * Vec3.dot edge2 (Vec3.cross (O - p0) edge1)

/-- One iteration of the face loop of `mesh_intersect_1`
(source lines 288-316) for face number `ii`: surviving rays have their
accepted bit set in `m_temp_2` and their hit face and hit point
overwritten.  The early `continue` statements of the source only skip
masked assignments that would be no-ops, so they do not change the
resulting state. -/
def i1Step (O D : ℕ → Vec3) (m : ℕ → Bool) (pts : ℕ → Vec3)
    (ii : ℕ) (face : Face) (st : I1State) : I1State :=
  let p0 := pts face.i0
  let p1 := pts face.i1
  let p2 := pts face.i2
  let m3 := fun j => m j && i1Accept (O j) (D j) p0 p1 p2
  { hitsM := fun j => st.hitsM j || m3 j
    hits := fun j => if m3 j then ii else st.hits j
    X := fun j => if m3 j then
        O j + Vec3.smul (i1T (O j) (D j) p0 p1 p2) (D j)
      else st.X j }

/-- The face loop of `mesh_intersect_1`, iterating `i1Step` over the
face list with running face number. -/
def i1Loop (O D : ℕ → Vec3) (m : ℕ → Bool) (pts : ℕ → Vec3) :
    ℕ → List Face → I1State → I1State
  | _, [], st => st
  | ii, face :: rest, st =>
      i1Loop O D m pts (ii + 1) rest (i1Step O D m pts ii face st)

/-- The result triple `(X, rays, hits)` returned by both intersection
methods. -/
structure IResult where
  X : ℕ → Vec3
  raysOut : RayBatch
  hits : ℕ → ℕ

/-- The exhaustive Möller–Trumbore test `mesh_intersect_1`
(source lines 267-322).  The source computes `h = np.cross(D[m_temp], edge2)`
over the compressed active subset, then combines the resulting length-k
arrays with the full-length mask via `m_temp &= ...`; when the face list
is nonempty this in-place conjunction raises a numpy broadcast error
unless k equals the batch length or k equals 1 (a length-1 operand is
broadcast).  In the k = 1 case every broadcast-polluted value lands on a
ray that is already masked out, so the observable result coincides with
the ideal masked fold; both working cases are therefore modelled by
`i1Loop` and the remaining cases return the error.  After the loop the
mask is narrowed in place: `m &= m_temp_2`. -/
def mesh_intersect_1 (rays : RayBatch) (mesh : Mesh) : Except String IResult :=
  if mesh.faces ≠ [] ∧ activeCount rays ≠ rays.num ∧ activeCount rays ≠ 1 then
    Except.error "operands could not be broadcast together"
  else
    let st := i1Loop rays.origin rays.direction rays.mask mesh.points 0 mesh.faces
      ⟨fun _ => false, fun _ => 0, fun _ => Vec3.zero⟩
    Except.ok
      { X := st.X
        raysOut := { rays with mask := fun j => rays.mask j && st.hitsM j }
        hits := st.hits }

/-- Acceptance of a ray by one face, stated from the spec's words for
the exhaustive test: the ray passes the face unless the
triple-product-like scalar `f` is within `1e-15` of zero, `u` lies
outside `[0, 1]`, or `v < 0` or `u + v > 1`. -/
def specAccept (O D p0 p1 p2 : Vec3) : Prop :=
  let edge1 := p1 - p0
  let edge2 := p2 - p0
  let h := Vec3.cross D edge2
  let f := Vec3.dot edge1 h
  let u := Vec3.dot (O - p0) h / f
  let v := Vec3.dot D (Vec3.cross (O - p0) edge1) / f
  ¬(-eps1 < f ∧ f < eps1) ∧ 0 ≤ u ∧ u ≤ 1 ∧ 0 ≤ v ∧ u + v ≤ 1

instance specAcceptDec (O D p0 p1 p2 : Vec3) :
    Decidable (specAccept O D p0 p1 p2) := by
  unfold specAccept; infer_instance

/-- Acceptance of a ray by a face of a vertex array. -/
def specAcceptF (O D : Vec3) (pts : ℕ → Vec3) (face : Face) : Prop :=
  specAccept O D (pts face.i0) (pts face.i1) (pts face.i2)

instance specAcceptFDec (O D : Vec3) (pts : ℕ → Vec3) (face : Face) :
    Decidable (specAcceptF O D pts face) :=
  specAcceptDec O D (pts face.i0) (pts face.i1) (pts face.i2)

/-- The ray parameter `t` of the Möller–Trumbore test for one face,
written with a division as in the spec's description. -/
def specT (O D p0 p1 p2 : Vec3) : ℚ :=
  let edge1 := p1 - p0
  let edge2 := p2 - p0
  let f := Vec3.dot edge1 (Vec3.cross D edge2)
  Vec3.dot edge2 (Vec3.cross (O - p0) edge1) / f

/-- The hit point `X = O + t * D` for one face. -/
def specHitPoint (O D p0 p1 p2 : Vec3) : Vec3 :=
  O + Vec3.smul (specT O D p0 p1 p2) D

/-- The last accepted face, in face-iteration order, of the numbered
face list starting at face number `ii0`; stated from the spec's words
(the recorded hit is whichever face the ray last passed all three
tests for). -/
def specLastHit (O D : Vec3) (pts : ℕ → Vec3) (ii0 : ℕ) (faces : List Face) :
    Option (ℕ × Face) :=
  ((List.enumFrom ii0 faces).reverse).find?
    (fun p => decide (specAcceptF O D pts p.2))

/-- The single unit triangle of the spec's concrete case. -/
def c7Points : ℕ → Vec3 := fun i =>
  if i = 0 then ⟨0, 0, 0⟩ else if i = 1 then ⟨1, 0, 0⟩ else ⟨0, 1, 0⟩

/-- Mesh holding only the triangle (0,0,0), (1,0,0), (0,1,0). -/
def c7Mesh : Mesh := ⟨c7Points, [⟨0, 1, 2⟩]⟩

/-- Two fully active rays pointing straight down: one from
(0.2, 0.2, 1), one from (2, 2, 1). -/
def c7Rays : RayBatch :=
  { num := 2
    origin := fun j => if j = 0 then ⟨1/5, 1/5, 1⟩ else ⟨2, 2, 1⟩
    direction := fun _ => ⟨0, 0, -1⟩
    mask := fun _ => true
    wavelength := fun _ => 0
    weight := fun _ => 1 }

/-- A three-ray batch whose third ray is inactive on entry. -/
def c9Rays : RayBatch :=
  { num := 3
    origin := fun _ => ⟨1/5, 1/5, 1⟩
    direction := fun _ => ⟨0, 0, -1⟩
    mask := fun j => decide (j < 2)
    wavelength := fun _ => 0
    weight := fun _ => 1 }

/-- A four-ray batch with three active rays and one inactive ray. -/
def c1Rays : RayBatch :=
  { num := 4
    origin := fun _ => ⟨1/5, 1/5, 1⟩
    direction := fun _ => ⟨0, 0, -1⟩
    mask := fun j => decide (j < 3)
    wavelength := fun _ => 0
    weight := fun _ => 1 }

/-! Coordinate transforms of `GeometryObject`
(src/xicsrt/objects/_GeometryObject.py).  The orientation matrix has
the local x, y, z axes as its rows, expressed in external coordinates. -/

/-- A single 3-vector argument of the transforms (rank-1 input). -/
abbrev V3 := Fin 3 → ℚ

/-- The orientation matrix. -/
abbrev M3 := Matrix (Fin 3) (Fin 3) ℚ

/-- Local-to-external vector transform, source lines 105-114:
`np.einsum` with subscripts contracting the vector against the
orientation matrix over the matrix row index, giving
`out[j] = sum_i R[i, j] * v[i]`. -/
def vector_to_external (R : M3) (v : V3) : V3 := fun j => ∑ i, R i j * v i

/-- External-to-local vector transform, source lines 116-124:
`np.einsum` with subscripts contracting the vector against the
orientation matrix over the matrix column index, giving
`out[j] = sum_i R[j, i] * v[i]`. -/
def vector_to_local (R : M3) (v : V3) : V3 := fun j => ∑ i, R j i * v i

/-- The rank-2 (batched) local-to-external transform: the einsum
subscripts apply the rank-1 transform to every row. -/
def vector_to_external_batch (R : M3) (vs : List V3) : List V3 :=
  vs.map (vector_to_external R)

/-- The rank-2 (batched) external-to-local transform. -/
def vector_to_local_batch (R : M3) (vs : List V3) : List V3 :=
  vs.map (vector_to_local R)

/-- Point transform to external coordinates, source lines 99-100:
vector transform, then add the origin. -/
def point_to_external (R : M3) (origin p : V3) : V3 :=
  vector_to_external R p + origin

/-- Point transform to local coordinates, source lines 102-103:
subtract the origin, then vector transform. -/
def point_to_local (R : M3) (origin p : V3) : V3 :=
  vector_to_local R (p - origin)

/-- Batched point transform to external coordinates. -/
def point_to_external_batch (R : M3) (origin : V3) (ps : List V3) : List V3 :=
  ps.map (point_to_external R origin)

/-- Batched point transform to local coordinates. -/
def point_to_local_batch (R : M3) (origin : V3) (ps : List V3) : List V3 :=
  ps.map (point_to_local R origin)

/-- The rows of the orientation matrix are unit length and mutually
orthogonal. -/
def rowsOrthonormal (R : M3) : Prop :=
  ∀ i j, (∑ k, R i k * R j k) = if i = j then (1 : ℚ) else 0

/-- Cross product on `Fin 3`-indexed vectors. -/
def cross3 (a b : V3) : V3 :=
  ![a 1 * b 2 - a 2 * b 1, a 2 * b 0 - a 0 * b 2, a 0 * b 1 - a 1 * b 0]

/-- The frame is right-handed: the y row equals z cross x. -/
def rightHanded (R : M3) : Prop := ∀ i, R 1 i = cross3 (R 2) (R 0) i

/-! Adjacency-table construction, `XicsrtOpticMesh.find_point_faces`
(source lines 414-430). -/

/-- Number of slots of face `f` equal to point index `p`: the per-row
match count of `np.equal(faces, p)`. -/
def faceMatches (p : ℕ) (f : Face) : ℕ :=
  (if f.i0 = p then 1 else 0) + (if f.i1 = p then 1 else 0) +
    (if f.i2 = p then 1 else 0)

/-- The row indices returned by `np.nonzero(np.equal(faces, p))[0]`
for the faces numbered from `i` on: face number repeated once per
matching slot, in row-major order. -/
def pointFaceRowsFrom (p : ℕ) : ℕ → List Face → List ℕ
  | _, [] => []
  | i, f :: rest =>
      List.replicate (faceMatches p f) i ++ pointFaceRowsFrom p (i + 1) rest

/-- The matching face rows `ii_f` for point index `p`. -/
def pointFaceRows (faces : List Face) (p : ℕ) : List ℕ :=
  pointFaceRowsFrom p 0 faces

/-- The adjacency capacity: the tables are allocated with
`np.zeros((8, len(m)))`. -/
def adjCap : ℕ := 8

/-- The vertex-to-face adjacency table builder `find_point_faces`
(source lines 414-430): for every point index below `numPoints` the
matching face rows are assigned into the capacity-8 column via
`p_faces_idx[:faces_num, ii_p] = ii_f`, and the first `faces_num` mask
entries are set.  When `faces_num` exceeds 8 the length-`faces_num`
right-hand side cannot be broadcast into the 8-entry slice and numpy
raises an error, modelled by `Except.error`; no truncation takes
place. -/
def find_point_faces (numPoints : ℕ) (faces : List Face) :
    Except String ((ℕ → ℕ → ℕ) × (ℕ → ℕ → Bool)) :=
  if ∃ p ∈ List.range numPoints, adjCap < (pointFaceRows faces p).length then
    Except.error "could not broadcast input array"
  else
    Except.ok
      ( fun i p => if p < numPoints then (pointFaceRows faces p).getD i 0 else 0
      , fun i p => decide (p < numPoints ∧ i < (pointFaceRows faces p).length) )

/-- Adjacency degree of a vertex, stated from the spec's words: the
number of faces containing the vertex. -/
def specDegree (faces : List Face) (p : ℕ) : ℕ :=
  faces.countP (fun f => decide (f.i0 = p ∨ f.i1 = p ∨ f.i2 = p))

/-- No face lists the same vertex twice (a mesh-quality assumption
relating row counts to the adjacency degree). -/
def facesWellFormed (faces : List Face) : Prop :=
  ∀ f ∈ faces, f.i0 ≠ f.i1 ∧ f.i0 ≠ f.i2 ∧ f.i1 ≠ f.i2

instance facesWellFormedDec (faces : List Face) :
    Decidable (facesWellFormed faces) := by
  unfold facesWellFormed; infer_instance

/-- Nine faces sharing vertex 0: adjacency degree 9 exceeds the
capacity 8. -/
def c6Faces : List Face :=
  [⟨0, 1, 2⟩, ⟨0, 2, 3⟩, ⟨0, 3, 4⟩, ⟨0, 4, 5⟩, ⟨0, 5, 6⟩,
   ⟨0, 6, 7⟩, ⟨0, 7, 8⟩, ⟨0, 8, 9⟩, ⟨0, 9, 10⟩]

/-! Configuration handling, `XicsrtOpticMesh.get_default_config` and
`check_param` (source lines 89-116).  The surrounding
configuration/object-lifecycle framework (`ConfigObject`) is not part
of the sources; its store is modelled from the spec. -/

/-- A configuration value: `None`, a boolean flag, or supplied data
such as a mesh array. -/
inductive CVal where
  | vNone
  | vBool (b : Bool)
  | vData
deriving DecidableEq

/-- Modelled from the spec: the configuration collaborator (the
excluded configuration/object-lifecycle framework) keeps `self.param`
as a dictionary from string keys to values; keys are unique, reading
an absent key is a missing-key error. -/
def Config : Type := String → Option CVal

/-- Dictionary lookup `self.param[key]`; a missing key raises. -/
def cfgGet (c : Config) (k : String) : Except String CVal :=
  match c k with
  | some v => Except.ok v
  | none => Except.error ("KeyError: " ++ k)

/-- Dictionary assignment `config[key] = value`. -/
def cfgSet (c : Config) (k : String) (v : CVal) : Config :=
  fun k2 => if k2 = k then some v else c k2

/-- The mesh-related default entries that
`XicsrtOpticMesh.get_default_config` (source lines 89-106) adds on top
of the superclass defaults `base`. -/
def get_default_config (base : Config) : Config :=
  [ ("use_meshgrid", CVal.vBool false)
  , ("mesh_points", CVal.vNone)
  , ("mesh_faces", CVal.vNone)
  , ("mesh_normals", CVal.vNone)
  , ("mesh_coarse_points", CVal.vNone)
  , ("mesh_coarse_faces", CVal.vNone)
  , ("mesh_coarse_normals", CVal.vNone)
  , ("mesh_interpolate", CVal.vBool true)
  , ("mesh_refine", CVal.vNone)
  ].foldl (fun c kv => cfgSet c kv.1 kv.2) base

/-- `XicsrtOpticMesh.check_param` (source lines 108-116): disable
interpolation when no normals were supplied, then, when the
`mesh_refine` flag is unset, enable it if coarse points were supplied —
read through the key `mesh_course_points`, exactly as spelled in the
source.  The superclass `check_param` belongs to the excluded
configuration framework and is modelled from the spec as not touching
the mesh keys. -/
def check_param (cfg : Config) : Except String Config :=
  match cfgGet cfg "mesh_normals" with
  | Except.error e => Except.error e
  | Except.ok mn =>
      let cfg1 := if mn = CVal.vNone then
          cfgSet cfg "mesh_interpolate" (CVal.vBool false)
        else cfg
      match cfgGet cfg1 "mesh_refine" with
      | Except.error e => Except.error e
      | Except.ok mr =>
          if mr = CVal.vNone then
            match cfgGet cfg1 "mesh_course_points" with
            | Except.error e => Except.error e
            | Except.ok mcp =>
                if mcp ≠ CVal.vNone then
                  Except.ok (cfgSet cfg1 "mesh_refine" (CVal.vBool true))
                else Except.ok cfg1
          else Except.ok cfg1

/-- Apply user-supplied configuration entries over the defaults. -/
def applyUpdates (c : Config) (updates : List (String × CVal)) : Config :=
  updates.foldl (fun c2 kv => cfgSet c2 kv.1 kv.2) c

/-! Candidate-restricted test `XicsrtOpticMesh.mesh_intersect_2`
(source lines 324-396) and its surrounding refinement pipeline. -/

/-- Face lookup `mesh['faces'][faces_idx]`: the model's vertex and
face arrays are total, with a junk face beyond range (candidate lists
produced by `find_point_faces` stay in range). -/
def mi2Face (mesh : Mesh) (fi : ℕ) : Face := mesh.faces.getD fi ⟨0, 0, 0⟩

/-- The ray/face-plane parameter `dist = t1 / t2` (source lines
364-367).  The source contracts against the unit `faces_normal`; the
normalization factor is common to `t1` and `t2` and cancels in the
quotient, so the model contracts against the unnormalized face cross
product `(p0 - p1) x (p2 - p1)` from `_mesh_precalc`. -/
def mi2Dist (O D p0 p1 p2 : Vec3) : ℚ :=
  let n := Vec3.cross (p0 - p1) (p2 - p1)
  Vec3.dot (p0 - O) n / Vec3.dot D n

/-- The plane intersection point `intersect = O + dist * D`. -/
def mi2Point (O D p0 p1 p2 : Vec3) : Vec3 :=
  O + Vec3.smul (mi2Dist O D p0 p1 p2) D

/-- The area defect `diff` (source lines 373-381): the three
sub-triangle cross-norms around the intersection point minus the full
face cross-norm. -/
noncomputable def mi2Diff (O D p0 p1 p2 : Vec3) : ℝ :=
  let P := mi2Point O D p0 p1 p2
  Vec3.rnorm (Vec3.cross (P - p1) (P - p2))
    + Vec3.rnorm (Vec3.cross (P - p2) (P - p0))
    + Vec3.rnorm (Vec3.cross (P - p0) (P - p1))
    - Vec3.rnorm (Vec3.cross (p0 - p1) (p0 - p2))

/-- Per-candidate acceptance `test = (diff < 1e-10) & (dist >= 0) &
faces_mask` (source line 385).  A zero plane denominator `D . n`
(parallel ray or degenerate face) produces IEEE inf/nan in the source,
the area sum is then inf or nan, and the diff comparison fails; the
model states this rejection as the explicit conjunct on the
denominator. -/
noncomputable def mi2Test (O D p0 p1 p2 : Vec3) (valid : Bool) : Prop :=
  mi2Diff O D p0 p1 p2 < ((tol2 : ℚ) : ℝ) ∧ mi2Dist O D p0 p1 p2 ≥ 0 ∧
    valid = true ∧ Vec3.dot D (Vec3.cross (p0 - p1) (p2 - p1)) ≠ 0

/-- The per-slot candidate test of a ray batch. -/
noncomputable def mi2TestAt (rays : RayBatch) (mesh : Mesh)
    (fidx : ℕ → ℕ → ℕ) (fmask : ℕ → ℕ → Bool) (i j : ℕ) : Prop :=
  let face := mi2Face mesh (fidx i j)
  mi2Test (rays.origin j) (rays.direction j)
    (mesh.points face.i0) (mesh.points face.i1) (mesh.points face.i2) (fmask i j)

/-- The plane intersection point of the candidate in slot `i`. -/
def mi2PointAt (rays : RayBatch) (mesh : Mesh) (fidx : ℕ → ℕ → ℕ) (i j : ℕ) : Vec3 :=
  let face := mi2Face mesh (fidx i j)
  mi2Point (rays.origin j) (rays.direction j)
    (mesh.points face.i0) (mesh.points face.i1) (mesh.points face.i2)

/-- Decidability of the per-slot test, by choice (the test is a real
comparison); pinned as an explicit instance so that the definition and
the theorems about it agree syntactically. -/
noncomputable def mi2PassDec (rays : RayBatch) (mesh : Mesh)
    (fidx : ℕ → ℕ → ℕ) (fmask : ℕ → ℕ → Bool) (j : ℕ) :
    DecidablePred (fun i => i < 8 ∧ mi2TestAt rays mesh fidx fmask i j) :=
  fun _ => Classical.propDecidable _

/-- Decidability of candidate existence, by choice. -/
noncomputable def mi2ExDec (rays : RayBatch) (mesh : Mesh)
    (fidx : ℕ → ℕ → ℕ) (fmask : ℕ → ℕ → Bool) (j : ℕ) :
    Decidable (∃ i, i < 8 ∧ mi2TestAt rays mesh fidx fmask i j) :=
  Classical.propDecidable _

/-- The candidate-restricted intersection test `mesh_intersect_2`
(source lines 324-396): each ray is tested against its 8 candidate
slots; the mask is narrowed in place by `m &= np.any(test, axis=0)`;
for the surviving rays `np.argmax` picks the first passing slot
(`Nat.find`, the least passing slot index), whose face index and plane
intersection point are recorded.  `hits` is `np.empty` and `X` is
`np.zeros`; entries of rays without a hit keep their initial values
(junk 0 for `hits`). -/
noncomputable def mesh_intersect_2 (rays : RayBatch) (mesh : Mesh)
    (fidx : ℕ → ℕ → ℕ) (fmask : ℕ → ℕ → Bool) : IResult :=
  { X := fun j =>
      if rays.mask j then
        @dite Vec3 _ (mi2ExDec rays mesh fidx fmask j)
          (fun h => mi2PointAt rays mesh fidx
            (@Nat.find _ (mi2PassDec rays mesh fidx fmask j) h) j)
          (fun _ => Vec3.zero)
      else Vec3.zero
    raysOut := { rays with
      mask := fun j => rays.mask j && @decide _ (mi2ExDec rays mesh fidx fmask j) }
    hits := fun j =>
      if rays.mask j then
        @dite ℕ _ (mi2ExDec rays mesh fidx fmask j)
          (fun h => fidx (@Nat.find _ (mi2PassDec rays mesh fidx fmask j) h) j)
          (fun _ => 0)
      else 0 }

/-- Triangle area (half the cross-norm), for the spec-side statement
of the area test. -/
noncomputable def triAreaR (A B C : Vec3) : ℝ :=
  Vec3.rnorm (Vec3.cross (B - A) (C - A)) / 2

/-- Candidate acceptance stated from the spec's words, with the two
amendments: the sub-triangle areas around the plane intersection point
must sum to within half of 1e-10 of the full area (the source compares
the doubled areas against 1e-10), and the ray/plane denominator must
be nonzero for the ray parameter to exist. -/
noncomputable def specPass2 (O D p0 p1 p2 : Vec3) (valid : Bool) : Prop :=
  let n := Vec3.cross (p0 - p1) (p2 - p1)
  let t := Vec3.dot (p0 - O) n / Vec3.dot D n
  let P := O + Vec3.smul t D
  valid = true ∧ Vec3.dot D n ≠ 0 ∧ 0 ≤ t ∧
    triAreaR P p1 p2 + triAreaR P p2 p0 + triAreaR P p0 p1 - triAreaR p0 p1 p2
      < ((tol2 : ℚ) : ℝ) / 2

/-- Candidate acceptance exactly as claimed (unamended): validity bit,
non-negative ray parameter, and sub-triangle area sum within 1e-10 of
the full area. -/
noncomputable def specPass2Claim (O D p0 p1 p2 : Vec3) (valid : Bool) : Prop :=
  let n := Vec3.cross (p0 - p1) (p2 - p1)
  let t := Vec3.dot (p0 - O) n / Vec3.dot D n
  let P := O + Vec3.smul t D
  valid = true ∧ 0 ≤ t ∧
    triAreaR P p1 p2 + triAreaR P p2 p0 + triAreaR P p0 p1 - triAreaR p0 p1 p2
      < ((tol2 : ℚ) : ℝ)

/-- One fully active ray aimed straight down slightly outside the unit
triangle: its plane intersection point is (1/2, -7e-11, 0), whose
sub-triangle areas exceed the full area by exactly 7e-11. -/
def c2xRays : RayBatch :=
  { num := 1
    origin := fun _ => ⟨1/2, -(7 / 10 ^ 11), 1⟩
    direction := fun _ => ⟨0, 0, -1⟩
    mask := fun _ => true
    wavelength := fun _ => 0
    weight := fun _ => 1 }

/-- A single candidate in slot 0. -/
def c2xFidx : ℕ → ℕ → ℕ := fun _ _ => 0

/-- Validity mask admitting only slot 0. -/
def c2xFmask : ℕ → ℕ → Bool := fun i _ => decide (i = 0)

/-! Normal interpolation `XicsrtOpticMesh.mesh_interpolate`
(source lines 162-181).  The scattered-data interpolators built by
scipy in `_mesh_precalc` are external collaborators; they enter the
model as abstract functions of the hit (x, y). -/

/-- A real-valued 3-vector, for the scaled normals produced by
`mesh_interpolate`. -/
structure Vec3R where
  x : ℝ
  y : ℝ
  z : ℝ

/-- Euclidean norm of a real 3-vector. -/
noncomputable def rnormR (v : Vec3R) : ℝ := Real.sqrt (v.x ^ 2 + v.y ^ 2 + v.z ^ 2)

/-- `mesh_interpolate` (source lines 162-181): the hit z-coordinate is
replaced by the height interpolator at (x, y), a raw normal is
assembled from the three normal-component interpolators at the same
(x, y), and each row is then scaled via
`np.einsum('i,ij->ij', np.linalg.norm(normals, axis=1), normals)` —
the row is multiplied by its norm, exactly as written in the source
(the `mask` argument of the method is unused). -/
noncomputable def mesh_interpolate (X : ℕ → Vec3)
    (iz inx iny inz : ℚ → ℚ → ℚ) : (ℕ → Vec3) × (ℕ → Vec3R) :=
  let X2 := fun j => (⟨(X j).x, (X j).y, iz (X j).x (X j).y⟩ : Vec3)
  let nr := fun j =>
    (⟨inx (X j).x (X j).y, iny (X j).x (X j).y, inz (X j).x (X j).y⟩ : Vec3)
  let scaled := fun j =>
    (⟨Vec3.rnorm (nr j) * ((nr j).x : ℝ),
      Vec3.rnorm (nr j) * ((nr j).y : ℝ),
      Vec3.rnorm (nr j) * ((nr j).z : ℝ)⟩ : Vec3R)
  (X2, scaled)

/-- The refinement path of `XicsrtOpticMesh.trace` (source lines
138-150): coarse exhaustive test, nearest-vertex lookup at the coarse
hit points (`find_near_faces`; the `cKDTree` spatial index is an
external collaborator, modelled as the abstract query `nearQuery` into
the fine mesh's vertex numbering), adjacency-column gather (`pIdx`,
`pMask` are the precomputed table columns), fine candidate-restricted
test, and the loss count `num_rays_lost = num_rays_coarse -
num_rays_fine` with its warning flag `not num_rays_lost == 0`. -/
noncomputable def traceRefine (rays : RayBatch) (coarse fine : Mesh)
    (nearQuery : Vec3 → ℕ) (pIdx : ℕ → ℕ → ℕ) (pMask : ℕ → ℕ → Bool) :
    Except String (IResult × ℤ × Bool) :=
  match mesh_intersect_1 rays coarse with
  | Except.error e => Except.error e
  | Except.ok r1 =>
      let numCoarse : ℕ := activeCount r1.raysOut
      let r2 := mesh_intersect_2 r1.raysOut fine
        (fun i j => pIdx i (nearQuery (r1.X j)))
        (fun i j => pMask i (nearQuery (r1.X j)))
      let numFine : ℕ := activeCount r2.raysOut
      let lost : ℤ := (numCoarse : ℤ) - (numFine : ℤ)
      Except.ok (r2, lost, decide (lost ≠ 0))

/- ### Theorems -/

theorem Vec3.sub_def (a b : Vec3) :
    a - b = ⟨a.x - b.x, a.y - b.y, a.z - b.z⟩ := rfl

theorem Vec3.add_def (a b : Vec3) :
    a + b = ⟨a.x + b.x, a.y + b.y, a.z + b.z⟩ := rfl

/-- The chained boolean tests of the source equal the decided spec-side
acceptance predicate. -/
theorem i1Accept_eq_decide (O D p0 p1 p2 : Vec3) :
    i1Accept O D p0 p1 p2 = decide (specAccept O D p0 p1 p2) := by
  rw [Bool.eq_iff_iff]
  simp only [i1Accept, specAccept, div_eq_mul_inv, mul_comm, gt_iff_lt,
    Bool.and_eq_true, Bool.not_eq_true', Bool.or_eq_false_iff,
    Bool.and_eq_false_iff,
    decide_eq_false_iff_not, decide_eq_true_eq, not_and_or, not_lt]
  tauto

/-- The ray parameter of the model equals the spec-side one. -/
theorem i1T_eq_specT (O D p0 p1 p2 : Vec3) :
    i1T O D p0 p1 p2 = specT O D p0 p1 p2 := by
  simp only [i1T, specT, div_eq_mul_inv]
  exact mul_comm _ _

/-- Helper: all-active batches have full active count. -/
theorem activeCount_eq_num (r : RayBatch) (h : ∀ j, j < r.num → r.mask j = true) :
    activeCount r = r.num := by
  unfold activeCount
  have hc : List.countP (fun j => r.mask j) (List.range r.num)
      = (List.range r.num).length :=
    List.countP_eq_length.mpr fun a ha => by
      simpa using h a (List.mem_range.mp ha)
  simpa using hc

/-- Rays inactive on entry are untouched by the face loop. -/
theorem i1Loop_frozen (O D : ℕ → Vec3) (m : ℕ → Bool) (pts : ℕ → Vec3)
    (faces : List Face) (ii0 : ℕ) (st : I1State) (j : ℕ) (hm : m j = false) :
    ((i1Loop O D m pts ii0 faces st).hitsM j = st.hitsM j) ∧
    ((i1Loop O D m pts ii0 faces st).hits j = st.hits j) ∧
    ((i1Loop O D m pts ii0 faces st).X j = st.X j) := by
  induction faces generalizing ii0 st with
  | nil => exact ⟨rfl, rfl, rfl⟩
  | cons face rest ih =>
      have hrec := ih (ii0 + 1) (i1Step O D m pts ii0 face st)
      simp only [i1Loop]
      refine ⟨?_, ?_, ?_⟩
      · rw [hrec.1]; simp [i1Step, hm]
      · rw [hrec.2.1]; simp [i1Step, hm]
      · rw [hrec.2.2]; simp [i1Step, hm]

/-- Characterization of the face loop on a ray active in the entry
mask: the accepted bit records whether some face accepts the ray, and
the recorded hit face and hit point are those of the last accepted
face. -/
theorem i1Loop_active (O D : ℕ → Vec3) (m : ℕ → Bool) (pts : ℕ → Vec3)
    (faces : List Face) (ii0 : ℕ) (st : I1State) (j : ℕ) (hm : m j = true) :
    ((i1Loop O D m pts ii0 faces st).hitsM j
      = (st.hitsM j || decide (∃ face ∈ faces, specAcceptF (O j) (D j) pts face))) ∧
    ((i1Loop O D m pts ii0 faces st).hits j
      = (match specLastHit (O j) (D j) pts ii0 faces with
         | some p => p.1
         | none => st.hits j)) ∧
    ((i1Loop O D m pts ii0 faces st).X j
      = (match specLastHit (O j) (D j) pts ii0 faces with
         | some p => specHitPoint (O j) (D j) (pts p.2.i0) (pts p.2.i1) (pts p.2.i2)
         | none => st.X j)) := by
  induction faces generalizing ii0 st with
  | nil => simp [i1Loop, specLastHit]
  | cons face rest ih =>
      have hrec := ih (ii0 + 1) (i1Step O D m pts ii0 face st)
      have hsplit : specLastHit (O j) (D j) pts ii0 (face :: rest)
          = ((specLastHit (O j) (D j) pts (ii0 + 1) rest).or
              (if specAcceptF (O j) (D j) pts face then some (ii0, face) else none)) := by
        unfold specLastHit
        rw [List.enumFrom_cons, List.reverse_cons, List.find?_append]
        congr 1
        by_cases hacc : specAcceptF (O j) (D j) pts face <;> simp [hacc]
      have hstep1 : (i1Step O D m pts ii0 face st).hitsM j
          = (st.hitsM j || decide (specAcceptF (O j) (D j) pts face)) := by
        simp [i1Step, hm, i1Accept_eq_decide, specAcceptF]
      have hstep2 : (i1Step O D m pts ii0 face st).hits j
          = if specAcceptF (O j) (D j) pts face then ii0 else st.hits j := by
        simp [i1Step, hm, i1Accept_eq_decide, specAcceptF]
      have hstep3 : (i1Step O D m pts ii0 face st).X j
          = if specAcceptF (O j) (D j) pts face then
              specHitPoint (O j) (D j) (pts face.i0) (pts face.i1) (pts face.i2)
            else st.X j := by
        simp [i1Step, hm, i1Accept_eq_decide, specAcceptF, specHitPoint, i1T_eq_specT]
      have hex : (specAcceptF (O j) (D j) pts face ∨
            ∃ f ∈ rest, specAcceptF (O j) (D j) pts f)
          ↔ (∃ f ∈ face :: rest, specAcceptF (O j) (D j) pts f) := by
        constructor
        · rintro (h | ⟨f, hf, hp⟩)
          · exact ⟨face, List.mem_cons_self face rest, h⟩
          · exact ⟨f, List.mem_cons_of_mem face hf, hp⟩
        · rintro ⟨f, hf, hp⟩
          rcases List.mem_cons.mp hf with rfl | hf
          · exact Or.inl hp
          · exact Or.inr ⟨f, hf, hp⟩
      simp only [i1Loop]
      refine ⟨?_, ?_, ?_⟩
      · rw [hrec.1, hstep1, Bool.or_assoc, ← Bool.decide_or, decide_eq_decide.mpr hex]
      · rw [hrec.2.1, hsplit]
        cases hs : specLastHit (O j) (D j) pts (ii0 + 1) rest with
        | some p => simp [Option.or]
        | none =>
            by_cases hacc : specAcceptF (O j) (D j) pts face <;>
              simp [Option.or, hacc, hstep2]
      · rw [hrec.2.2, hsplit]
        cases hs : specLastHit (O j) (D j) pts (ii0 + 1) rest with
        | some p => simp [Option.or]
        | none =>
            by_cases hacc : specAcceptF (O j) (D j) pts face <;>
              simp [Option.or, hacc, hstep3]

/-- C1 (amended): for every ray batch all of whose rays are active on
entry and every mesh, the exhaustive test succeeds; a ray is rejected
by a face exactly under the spec's three conditions (`specAccept`
negated), a ray's recorded hit face and hit point are those of the
last face, in face-iteration order, for which it passed all three
tests, and the final mask equals the old mask intersected with the
union of the per-face accepted sets, so rays accepted by zero faces
become inactive.  (The unamended claim quantifies over partially
masked batches, on which the source instead raises a broadcast error;
see the counterexample.) -/
theorem c1_exhaustive_test (rays : RayBatch) (mesh : Mesh)
    (hact : ∀ j, j < rays.num → rays.mask j = true) :
    ∃ res, mesh_intersect_1 rays mesh = Except.ok res ∧
      res.raysOut.origin = rays.origin ∧
      res.raysOut.direction = rays.direction ∧
      res.raysOut.wavelength = rays.wavelength ∧
      res.raysOut.weight = rays.weight ∧
      ∀ j, j < rays.num →
        (res.raysOut.mask j
          = (rays.mask j && decide (∃ face ∈ mesh.faces,
              specAcceptF (rays.origin j) (rays.direction j) mesh.points face))) ∧
        (∀ p, specLastHit (rays.origin j) (rays.direction j) mesh.points 0 mesh.faces
              = some p →
          res.hits j = p.1 ∧
          res.X j = specHitPoint (rays.origin j) (rays.direction j)
            (mesh.points p.2.i0) (mesh.points p.2.i1) (mesh.points p.2.i2)) := by
  have hc : activeCount rays = rays.num := activeCount_eq_num rays hact
  have hok : mesh_intersect_1 rays mesh = Except.ok
      { X := (i1Loop rays.origin rays.direction rays.mask mesh.points 0 mesh.faces
          ⟨fun _ => false, fun _ => 0, fun _ => Vec3.zero⟩).X
        raysOut := { rays with mask := fun j => rays.mask j &&
          (i1Loop rays.origin rays.direction rays.mask mesh.points 0 mesh.faces
            ⟨fun _ => false, fun _ => 0, fun _ => Vec3.zero⟩).hitsM j }
        hits := (i1Loop rays.origin rays.direction rays.mask mesh.points 0 mesh.faces
          ⟨fun _ => false, fun _ => 0, fun _ => Vec3.zero⟩).hits } := by
    unfold mesh_intersect_1
    rw [if_neg (fun hcon => hcon.2.1 hc)]
  refine ⟨_, hok, rfl, rfl, rfl, rfl, ?_⟩
  · intro j hj
    have hm : rays.mask j = true := hact j hj
    have hloop := i1Loop_active rays.origin rays.direction rays.mask mesh.points
      mesh.faces 0 ⟨fun _ => false, fun _ => 0, fun _ => Vec3.zero⟩ j hm
    constructor
    · show (rays.mask j && _) = _
      rw [hloop.1]
      simp
    · intro p hp
      constructor
      · show (i1Loop _ _ _ _ _ _ _).hits j = p.1
        rw [hloop.2.1, hp]
      · show (i1Loop _ _ _ _ _ _ _).X j = _
        rw [hloop.2.2, hp]

/-- C1 counterexample: the claim, as stated over every ray batch, fails
on a four-ray batch with three active rays: the face loop's compressed
length-3 arrays cannot be conjoined with the length-4 mask, so no
result with the described mask narrowing is produced at all; the call
raises a broadcast error. -/
theorem c1_counterexample :
    mesh_intersect_1 c1Rays c7Mesh
      = Except.error "operands could not be broadcast together" ∧
    activeCount c1Rays = 3 ∧ c1Rays.num = 4 := by
  refine ⟨?_, by decide, rfl⟩
  norm_num [mesh_intersect_1, activeCount, c1Rays, c7Mesh, List.range_succ]

/-- Witness for the amended C1 theorem: the concrete fully active
two-ray batch of the spec's concrete case satisfies the hypothesis and
the conclusion. -/
theorem c1_exhaustive_test_witness :
    (∀ j, j < c7Rays.num → c7Rays.mask j = true) ∧
    (∃ res, mesh_intersect_1 c7Rays c7Mesh = Except.ok res ∧
      res.raysOut.origin = c7Rays.origin ∧
      res.raysOut.direction = c7Rays.direction ∧
      res.raysOut.wavelength = c7Rays.wavelength ∧
      res.raysOut.weight = c7Rays.weight ∧
      ∀ j, j < c7Rays.num →
        (res.raysOut.mask j
          = (c7Rays.mask j && decide (∃ face ∈ c7Mesh.faces,
              specAcceptF (c7Rays.origin j) (c7Rays.direction j) c7Mesh.points face))) ∧
        (∀ p, specLastHit (c7Rays.origin j) (c7Rays.direction j) c7Mesh.points 0
              c7Mesh.faces = some p →
          res.hits j = p.1 ∧
          res.X j = specHitPoint (c7Rays.origin j) (c7Rays.direction j)
            (c7Mesh.points p.2.i0) (c7Mesh.points p.2.i1) (c7Mesh.points p.2.i2))) :=
  ⟨by decide, c1_exhaustive_test c7Rays c7Mesh (by decide)⟩

/-- C7: for the mesh made of the single triangle (0,0,0), (1,0,0),
(0,1,0), the exhaustive test sends the ray with origin (0.2, 0.2, 1)
and direction (0, 0, -1) to the hit point (0.2, 0.2, 0) with mask True,
and sends the ray with origin (2, 2, 1) and the same direction to mask
False. -/
theorem c7_concrete_case :
    (mesh_intersect_1 c7Rays c7Mesh).toOption.map
        (fun res => (res.raysOut.mask 0, res.X 0, res.hits 0, res.raysOut.mask 1))
      = some (true, ⟨1/5, 1/5, 0⟩, 0, false) := by
  norm_num [mesh_intersect_1, activeCount, i1Loop, i1Step, i1Accept, i1T,
    c7Rays, c7Mesh, c7Points,
    Vec3.dot, Vec3.cross, Vec3.smul, Vec3.zero, Vec3.sub_def, Vec3.add_def, eps1,
    List.range_succ, Except.toOption]

/-- C9: inactive rays are not frozen by the exhaustive test: on a batch
of three rays whose third ray is inactive on entry, `mesh_intersect_1`
combines the length-2 compressed test arrays with the length-3 mask and
fails with a numpy broadcast error instead of leaving the inactive ray
alone and advancing the active ones. -/
theorem c9_inactive_rays_crash :
    mesh_intersect_1 c9Rays c7Mesh =
      Except.error "operands could not be broadcast together" ∧
    activeCount c9Rays = 2 ∧ c9Rays.num = 3 := by
  refine ⟨?_, by decide, rfl⟩
  norm_num [mesh_intersect_1, activeCount, c9Rays, c7Mesh, List.range_succ]

/-- The external transform is multiplication by the transpose. -/
theorem vector_to_external_eq_mulVec (R : M3) (v : V3) :
    vector_to_external R v = Matrix.mulVec R.transpose v := by
  funext j
  simp [vector_to_external, Matrix.mulVec, Matrix.dotProduct, Fin.sum_univ_three, Matrix.transpose_apply]

/-- The local transform is multiplication by the matrix itself. -/
theorem vector_to_local_eq_mulVec (R : M3) (v : V3) :
    vector_to_local R v = Matrix.mulVec R v := by
  funext j
  simp [vector_to_local, Matrix.mulVec, Matrix.dotProduct, Fin.sum_univ_three]

/-- Row orthonormality is exactly `R * R.transpose = 1`. -/
theorem rowsOrthonormal_iff (R : M3) : rowsOrthonormal R ↔ R * R.transpose = 1 := by
  constructor
  · intro h
    ext i j
    have := h i j
    simpa [Matrix.mul_apply, Matrix.transpose_apply, Matrix.one_apply] using this
  · intro h i j
    have := congrArg (fun M => M i j) h
    simpa [Matrix.mul_apply, Matrix.transpose_apply, Matrix.one_apply] using this

/-- C3: for every frame whose orientation matrix is orthonormal (rows
unit length, mutually orthogonal, right-handed) and every vector or
point, single (rank 1) or batched (rank 2), local-to-external composed
with external-to-local is the identity, in both orders, and likewise
for the point transforms; the identities are exact in the rational
model (hence within floating tolerance). -/
theorem c3_round_trip (R : M3) (o v : V3) (vs : List V3)
    (horth : rowsOrthonormal R) (hhand : rightHanded R) :
    vector_to_local R (vector_to_external R v) = v ∧
    vector_to_external R (vector_to_local R v) = v ∧
    point_to_local R o (point_to_external R o v) = v ∧
    point_to_external R o (point_to_local R o v) = v ∧
    vector_to_local_batch R (vector_to_external_batch R vs) = vs ∧
    vector_to_external_batch R (vector_to_local_batch R vs) = vs ∧
    point_to_local_batch R o (point_to_external_batch R o vs) = vs ∧
    point_to_external_batch R o (point_to_local_batch R o vs) = vs := by
  have h1 : R * R.transpose = 1 := (rowsOrthonormal_iff R).mp horth
  have h2 : R.transpose * R = 1 := Matrix.mul_eq_one_comm.mp h1
  have hle : ∀ w : V3, vector_to_local R (vector_to_external R w) = w := by
    intro w
    rw [vector_to_external_eq_mulVec, vector_to_local_eq_mulVec,
      Matrix.mulVec_mulVec, h1, Matrix.one_mulVec]
  have hel : ∀ w : V3, vector_to_external R (vector_to_local R w) = w := by
    intro w
    rw [vector_to_external_eq_mulVec, vector_to_local_eq_mulVec,
      Matrix.mulVec_mulVec, h2, Matrix.one_mulVec]
  have hpl : ∀ w : V3, point_to_local R o (point_to_external R o w) = w := by
    intro w
    unfold point_to_local point_to_external
    rw [add_sub_cancel_right, hle]
  have hpe : ∀ w : V3, point_to_external R o (point_to_local R o w) = w := by
    intro w
    unfold point_to_local point_to_external
    rw [hel, sub_add_cancel]
  refine ⟨hle v, hel v, hpl v, hpe v, ?_, ?_, ?_, ?_⟩ <;>
    simp [vector_to_local_batch, vector_to_external_batch,
      point_to_local_batch, point_to_external_batch,
      hle, hel, hpl, hpe, List.map_map, Function.comp_def]

/-- Witness for C3 at the identity frame with origin zero and the
vector (1, 2, 3). -/
theorem c3_round_trip_witness :
    rowsOrthonormal (1 : M3) ∧ rightHanded (1 : M3) ∧
    (vector_to_local 1 (vector_to_external 1 ![(1 : ℚ), 2, 3]) = ![(1 : ℚ), 2, 3] ∧
      vector_to_external 1 (vector_to_local 1 ![(1 : ℚ), 2, 3]) = ![(1 : ℚ), 2, 3] ∧
      point_to_local 1 0 (point_to_external 1 0 ![(1 : ℚ), 2, 3]) = ![(1 : ℚ), 2, 3] ∧
      point_to_external 1 0 (point_to_local 1 0 ![(1 : ℚ), 2, 3]) = ![(1 : ℚ), 2, 3] ∧
      vector_to_local_batch 1 (vector_to_external_batch 1 [![(1 : ℚ), 2, 3]])
        = [![(1 : ℚ), 2, 3]] ∧
      vector_to_external_batch 1 (vector_to_local_batch 1 [![(1 : ℚ), 2, 3]])
        = [![(1 : ℚ), 2, 3]] ∧
      point_to_local_batch 1 0 (point_to_external_batch 1 0 [![(1 : ℚ), 2, 3]])
        = [![(1 : ℚ), 2, 3]] ∧
      point_to_external_batch 1 0 (point_to_local_batch 1 0 [![(1 : ℚ), 2, 3]])
        = [![(1 : ℚ), 2, 3]]) := by
  have horth : rowsOrthonormal (1 : M3) := by
    intro i j
    fin_cases i <;> fin_cases j <;>
      simp [Matrix.one_apply, Fin.sum_univ_three]
  have hhand : rightHanded (1 : M3) := by
    intro i
    fin_cases i <;> simp [cross3, Matrix.one_apply]
  exact ⟨horth, hhand,
    c3_round_trip 1 0 ![(1 : ℚ), 2, 3] [![(1 : ℚ), 2, 3]] horth hhand⟩

/-- C5: the external-to-local transform dots the input vector against
the orientation matrix rows (writing the contraction along the row
index of the output), the local-to-external transform dots against the
columns, and the two contractions are exact transposes of each other,
for single vectors and for batches. -/
theorem c5_transpose_contraction (R : M3) (v : V3) (vs : List V3) :
    vector_to_local R v = Matrix.mulVec R v ∧
    vector_to_external R v = Matrix.vecMul v R ∧
    vector_to_external R v = vector_to_local R.transpose v ∧
    vector_to_local R v = vector_to_external R.transpose v ∧
    vector_to_external_batch R vs = vector_to_local_batch R.transpose vs ∧
    vector_to_local_batch R vs = vector_to_external_batch R.transpose vs := by
  have hev : ∀ w : V3, vector_to_external R w = vector_to_local R.transpose w := by
    intro w
    funext j
    simp [vector_to_external, vector_to_local, Matrix.transpose_apply]
  have hlv : ∀ w : V3, vector_to_local R w = vector_to_external R.transpose w := by
    intro w
    funext j
    simp [vector_to_external, vector_to_local, Matrix.transpose_apply]
  refine ⟨vector_to_local_eq_mulVec R v, ?_, hev v, hlv v, ?_, ?_⟩
  · funext j
    simp [vector_to_external, Matrix.vecMul, Matrix.dotProduct, Fin.sum_univ_three, mul_comm]
  · simp [vector_to_external_batch, vector_to_local_batch, hev]
  · simp [vector_to_external_batch, vector_to_local_batch, hlv]

/-- Length of the matching rows: the sum of the per-face match
counts. -/
theorem pointFaceRowsFrom_length (p : ℕ) (faces : List Face) (i : ℕ) :
    (pointFaceRowsFrom p i faces).length = (faces.map (faceMatches p)).sum := by
  induction faces generalizing i with
  | nil => rfl
  | cons f rest ih => simp [pointFaceRowsFrom, ih]

/-- A face without repeated vertices matches a point in at most one
slot. -/
theorem faceMatches_of_distinct (p : ℕ) (f : Face)
    (h : f.i0 ≠ f.i1 ∧ f.i0 ≠ f.i2 ∧ f.i1 ≠ f.i2) :
    faceMatches p f = if f.i0 = p ∨ f.i1 = p ∨ f.i2 = p then 1 else 0 := by
  obtain ⟨h01, h02, h12⟩ := h
  unfold faceMatches
  by_cases e0 : f.i0 = p <;> by_cases e1 : f.i1 = p <;> by_cases e2 : f.i2 = p <;>
    simp_all

/-- On a well-formed face list the number of matching rows equals the
adjacency degree. -/
theorem pointFaceRows_length (faces : List Face) (p : ℕ)
    (hwf : facesWellFormed faces) :
    (pointFaceRows faces p).length = specDegree faces p := by
  unfold pointFaceRows specDegree
  rw [pointFaceRowsFrom_length]
  induction faces with
  | nil => rfl
  | cons f rest ih =>
      have hf := faceMatches_of_distinct p f (hwf f (List.mem_cons_self f rest))
      have hrest := ih (fun g hg => hwf g (List.mem_cons_of_mem f hg))
      simp only [List.map_cons, List.sum_cons, List.countP_cons, hf, hrest]
      by_cases hc : f.i0 = p ∨ f.i1 = p ∨ f.i2 = p <;> simp [hc, Nat.add_comm]

/-- C6 (amended): for every vertex whose adjacency degree exceeds the
capacity 8, building the vertex-to-face table does not truncate: the
assignment of the matching rows into the capacity-8 column fails with
a numpy broadcast error and the construction does not complete. -/
theorem c6_no_silent_truncation (numPoints : ℕ) (faces : List Face) (p : ℕ)
    (hwf : facesWellFormed faces) (hp : p < numPoints)
    (hdeg : adjCap < specDegree faces p) :
    find_point_faces numPoints faces
      = Except.error "could not broadcast input array" := by
  unfold find_point_faces
  rw [if_pos]
  exact ⟨p, List.mem_range.mpr hp, by rw [pointFaceRows_length faces p hwf]; exact hdeg⟩

/-- C6 counterexample: on nine well-formed faces sharing vertex 0 the
claim, as stated, fails: `find_point_faces` does not complete with a
truncated face list; it raises a broadcast error. -/
theorem c6_counterexample :
    find_point_faces 11 c6Faces = Except.error "could not broadcast input array" ∧
    specDegree c6Faces 0 = 9 := by
  constructor
  · rfl
  · decide

/-- Witness for the amended C6 theorem at the nine-face mesh. -/
theorem c6_no_silent_truncation_witness :
    facesWellFormed c6Faces ∧ 0 < 11 ∧ adjCap < specDegree c6Faces 0 ∧
    find_point_faces 11 c6Faces
      = Except.error "could not broadcast input array" :=
  ⟨by decide, by decide, by decide,
    c6_no_silent_truncation 11 c6Faces 0 (by decide) (by decide) (by decide)⟩

/-- Updates whose keys avoid `k` leave the entry for `k` unchanged. -/
theorem applyUpdates_ne (c : Config) (updates : List (String × CVal)) (k : String)
    (hupd : ∀ kv ∈ updates, kv.1 ≠ k) :
    applyUpdates c updates k = c k := by
  induction updates generalizing c with
  | nil => rfl
  | cons kv rest ih =>
      have hne : k ≠ kv.1 := fun h => hupd kv (List.mem_cons_self kv rest) h.symm
      have : applyUpdates (cfgSet c kv.1 kv.2) rest k = cfgSet c kv.1 kv.2 k :=
        ih (cfgSet c kv.1 kv.2) (fun kv2 h2 => hupd kv2 (List.mem_cons_of_mem kv h2))
      calc applyUpdates c (kv :: rest) k
          = applyUpdates (cfgSet c kv.1 kv.2) rest k := rfl
        _ = cfgSet c kv.1 kv.2 k := this
        _ = c k := by simp [cfgSet, hne]

/-- Updates never remove a present key. -/
theorem applyUpdates_isSome (c : Config) (updates : List (String × CVal)) (k : String)
    (hc : c k ≠ none) :
    applyUpdates c updates k ≠ none := by
  induction updates generalizing c with
  | nil => exact hc
  | cons kv rest ih =>
      refine ih (cfgSet c kv.1 kv.2) ?_
      unfold cfgSet
      by_cases h : k = kv.1 <;> simp [h, hc]

/-- The defaults never define the misspelled key. -/
theorem defaults_course_none (base : Config)
    (hb : base "mesh_course_points" = none) :
    get_default_config base "mesh_course_points" = none := by
  simp [get_default_config, cfgSet, hb]

/-- The defaults leave the refinement flag unset. -/
theorem defaults_refine_none (base : Config) :
    get_default_config base "mesh_refine" = some CVal.vNone := by
  simp [get_default_config, cfgSet]

/-- The defaults define the normals entry. -/
theorem defaults_normals_isSome (base : Config) :
    get_default_config base "mesh_normals" ≠ none := by
  simp [get_default_config, cfgSet]

/-- C10: for every configuration built from the defaults and user
entries that set neither the misspelled key `mesh_course_points` nor
the flag `mesh_refine` (so the flag stays at its default `None`),
`check_param` reads the key `mesh_course_points`, which is never
present, and fails with a missing-key error — it does not enable
refinement even when a coarse mesh is supplied under
`mesh_coarse_points`. -/
theorem c10_misspelled_key (base : Config) (updates : List (String × CVal))
    (hb1 : base "mesh_course_points" = none)
    (hb2 : base "mesh_refine" = none)
    (hupd : ∀ kv ∈ updates,
      kv.1 ≠ "mesh_course_points" ∧ kv.1 ≠ "mesh_refine") :
    check_param (applyUpdates (get_default_config base) updates)
      = Except.error ("KeyError: " ++ "mesh_course_points") := by
  set cfg := applyUpdates (get_default_config base) updates with hcfg
  have hcourse : cfg "mesh_course_points" = none := by
    rw [hcfg, applyUpdates_ne _ _ _ (fun kv h => (hupd kv h).1)]
    exact defaults_course_none base hb1
  have hrefine : cfg "mesh_refine" = some CVal.vNone := by
    rw [hcfg, applyUpdates_ne _ _ _ (fun kv h => (hupd kv h).2)]
    exact defaults_refine_none base
  have hn : cfg "mesh_normals" ≠ none :=
    applyUpdates_isSome _ _ _ (defaults_normals_isSome base)
  obtain ⟨mnv, hmn⟩ := Option.ne_none_iff_exists'.mp hn
  have hget1 : cfgGet cfg "mesh_normals" = Except.ok mnv := by
    simp [cfgGet, hmn]
  have h1refine : (if mnv = CVal.vNone then
      cfgSet cfg "mesh_interpolate" (CVal.vBool false) else cfg) "mesh_refine"
      = some CVal.vNone := by
    by_cases hv : mnv = CVal.vNone <;> simp [hv, cfgSet, hrefine]
  have h1course : (if mnv = CVal.vNone then
      cfgSet cfg "mesh_interpolate" (CVal.vBool false) else cfg) "mesh_course_points"
      = none := by
    by_cases hv : mnv = CVal.vNone <;> simp [hv, cfgSet, hcourse]
  have hget2 : cfgGet (if mnv = CVal.vNone then
      cfgSet cfg "mesh_interpolate" (CVal.vBool false) else cfg) "mesh_refine"
      = Except.ok CVal.vNone := by
    simp [cfgGet, h1refine]
  have hget3 : cfgGet (if mnv = CVal.vNone then
      cfgSet cfg "mesh_interpolate" (CVal.vBool false) else cfg) "mesh_course_points"
      = Except.error ("KeyError: " ++ "mesh_course_points") := by
    simp [cfgGet, h1course]
  unfold check_param
  rw [hget1]
  dsimp only
  rw [hget2]
  dsimp only
  rw [if_pos rfl, hget3]

theorem Vec3.neg_sub_eq (a b : Vec3) : a - b = Vec3.zero - (b - a) := by
  cases a; cases b
  simp only [Vec3.sub_def, Vec3.zero, Vec3.mk.injEq]
  exact ⟨by ring, by ring, by ring⟩

theorem Vec3.cross_neg_neg (a b : Vec3) :
    cross (zero - a) (zero - b) = cross a b := by
  cases a; cases b
  simp only [cross, zero, sub_def, Vec3.mk.injEq]
  exact ⟨by ring, by ring, by ring⟩

/-- A triangle area with the apex first equals half the cross-norm of
the two apex-to-base edges taken from the apex. -/
theorem triAreaR_eq (P A B : Vec3) :
    triAreaR P A B = Vec3.rnorm (Vec3.cross (P - A) (P - B)) / 2 := by
  unfold triAreaR
  rw [Vec3.neg_sub_eq A P, Vec3.neg_sub_eq B P, Vec3.cross_neg_neg]

/-- The spec-side area sum defect is half the source's cross-norm
defect. -/
theorem areaSum_eq_half_diff (O D p0 p1 p2 : Vec3) :
    triAreaR (mi2Point O D p0 p1 p2) p1 p2
      + triAreaR (mi2Point O D p0 p1 p2) p2 p0
      + triAreaR (mi2Point O D p0 p1 p2) p0 p1
      - triAreaR p0 p1 p2
    = mi2Diff O D p0 p1 p2 / 2 := by
  rw [triAreaR_eq, triAreaR_eq, triAreaR_eq]
  unfold triAreaR mi2Diff
  rw [Vec3.neg_sub_eq p1 p0, Vec3.neg_sub_eq p2 p0, Vec3.cross_neg_neg]
  ring

/-- The spec-side pass predicate (amended) is equivalent to the
source's per-candidate test. -/
theorem specPass2_iff (O D p0 p1 p2 : Vec3) (valid : Bool) :
    specPass2 O D p0 p1 p2 valid ↔ mi2Test O D p0 p1 p2 valid := by
  have harea := areaSum_eq_half_diff O D p0 p1 p2
  unfold specPass2 mi2Test
  constructor
  · rintro ⟨h1, h2, h3, h4⟩
    refine ⟨?_, h3, h1, h2⟩
    have h4b : mi2Diff O D p0 p1 p2 / 2 < ((tol2 : ℚ) : ℝ) / 2 := by
      rw [← harea]; exact h4
    linarith
  · rintro ⟨h1, h2, h3, h4⟩
    refine ⟨h3, h4, h2, ?_⟩
    have : mi2Diff O D p0 p1 p2 / 2 < ((tol2 : ℚ) : ℝ) / 2 := by linarith
    rw [← harea] at this
    exact this

/-- C2 (amended): for every ray with a candidate list, a candidate
passes exactly when its validity bit is set, the ray/face-plane
denominator is nonzero (so the ray parameter exists), the ray
parameter is non-negative, and the sum of the three sub-triangle areas
at the plane intersection point exceeds the full triangle area by less
than 0.5e-10 (the source compares the doubled areas against 1e-10);
among passing candidates the lowest-index one supplies the recorded
hit face and hit point; a ray with no passing candidate becomes
inactive, and a ray inactive on entry stays inactive. -/
theorem c2_candidate_test (rays : RayBatch) (mesh : Mesh)
    (fidx : ℕ → ℕ → ℕ) (fmask : ℕ → ℕ → Bool) (j : ℕ) (hj : j < rays.num) :
    ((mesh_intersect_2 rays mesh fidx fmask).raysOut.mask j = true ↔
      (rays.mask j = true ∧ ∃ i, i < 8 ∧
        specPass2 (rays.origin j) (rays.direction j)
          (mesh.points (mi2Face mesh (fidx i j)).i0)
          (mesh.points (mi2Face mesh (fidx i j)).i1)
          (mesh.points (mi2Face mesh (fidx i j)).i2) (fmask i j))) ∧
    (∀ i, i < 8 →
      specPass2 (rays.origin j) (rays.direction j)
        (mesh.points (mi2Face mesh (fidx i j)).i0)
        (mesh.points (mi2Face mesh (fidx i j)).i1)
        (mesh.points (mi2Face mesh (fidx i j)).i2) (fmask i j) →
      (∀ i2, i2 < i →
        ¬ specPass2 (rays.origin j) (rays.direction j)
          (mesh.points (mi2Face mesh (fidx i2 j)).i0)
          (mesh.points (mi2Face mesh (fidx i2 j)).i1)
          (mesh.points (mi2Face mesh (fidx i2 j)).i2) (fmask i2 j)) →
      rays.mask j = true →
      (mesh_intersect_2 rays mesh fidx fmask).hits j = fidx i j ∧
      (mesh_intersect_2 rays mesh fidx fmask).X j = mi2PointAt rays mesh fidx i j) := by
  have hiff : ∀ i, (specPass2 (rays.origin j) (rays.direction j)
      (mesh.points (mi2Face mesh (fidx i j)).i0)
      (mesh.points (mi2Face mesh (fidx i j)).i1)
      (mesh.points (mi2Face mesh (fidx i j)).i2) (fmask i j)
      ↔ mi2TestAt rays mesh fidx fmask i j) := by
    intro i
    exact specPass2_iff _ _ _ _ _ _
  have hmaskEq : (mesh_intersect_2 rays mesh fidx fmask).raysOut.mask j
      = (rays.mask j && @decide _ (mi2ExDec rays mesh fidx fmask j)) := rfl
  constructor
  · rw [hmaskEq, Bool.and_eq_true]
    simp only [decide_eq_true_eq]
    constructor
    · rintro ⟨hm, i, hi, hp⟩
      exact ⟨hm, i, hi, (hiff i).mpr hp⟩
    · rintro ⟨hm, i, hi, hp⟩
      exact ⟨hm, i, hi, (hiff i).mp hp⟩
  · intro i hi hp hmin hm
    have hex : ∃ i2, i2 < 8 ∧ mi2TestAt rays mesh fidx fmask i2 j :=
      ⟨i, hi, (hiff i).mp hp⟩
    have hfind : @Nat.find _ (mi2PassDec rays mesh fidx fmask j) hex = i := by
      letI := mi2PassDec rays mesh fidx fmask j
      rw [Nat.find_eq_iff]
      refine ⟨⟨hi, (hiff i).mp hp⟩, ?_⟩
      rintro k hk ⟨hk8, hkp⟩
      exact hmin k hk ((hiff k).mpr hkp)
    have hhitsEq : (mesh_intersect_2 rays mesh fidx fmask).hits j
        = (if rays.mask j then
            @dite ℕ _ (mi2ExDec rays mesh fidx fmask j)
              (fun h => fidx (@Nat.find _ (mi2PassDec rays mesh fidx fmask j) h) j)
              (fun _ => 0)
          else 0) := rfl
    have hXEq : (mesh_intersect_2 rays mesh fidx fmask).X j
        = (if rays.mask j then
            @dite Vec3 _ (mi2ExDec rays mesh fidx fmask j)
              (fun h => mi2PointAt rays mesh fidx
                (@Nat.find _ (mi2PassDec rays mesh fidx fmask j) h) j)
              (fun _ => Vec3.zero)
          else Vec3.zero) := rfl
    constructor
    · rw [hhitsEq, if_pos hm, dif_pos hex, hfind]
    · rw [hXEq, if_pos hm, dif_pos hex, hfind]

/-- Norm of a vector supported on the z-component. -/
theorem rnorm_z (w : ℚ) : Vec3.rnorm ⟨0, 0, w⟩ = |(w : ℝ)| := by
  unfold Vec3.rnorm
  push_cast
  rw [show (0 : ℝ) ^ 2 + 0 ^ 2 + (w : ℝ) ^ 2 = (w : ℝ) ^ 2 by ring]
  exact Real.sqrt_sq_eq_abs _

/-- Unfolded form of the unamended claim predicate. -/
theorem specPass2Claim_iff (O D p0 p1 p2 : Vec3) (valid : Bool) :
    specPass2Claim O D p0 p1 p2 valid ↔
      (valid = true ∧ 0 ≤ mi2Dist O D p0 p1 p2 ∧
        triAreaR (mi2Point O D p0 p1 p2) p1 p2
          + triAreaR (mi2Point O D p0 p1 p2) p2 p0
          + triAreaR (mi2Point O D p0 p1 p2) p0 p1
          - triAreaR p0 p1 p2 < ((tol2 : ℚ) : ℝ)) :=
  Iff.rfl

/-- C2 counterexample: for the ray whose plane intersection point lies
7e-11 outside the unit triangle's edge, the claim's conditions hold
(validity set, ray parameter 1 >= 0, sub-triangle areas exceeding the
full area by 7e-11 < 1e-10), yet the source rejects the candidate (the
doubled-area defect 1.4e-10 fails the 1e-10 comparison) and the ray
becomes inactive. -/
theorem c2_counterexample :
    specPass2Claim (c2xRays.origin 0) (c2xRays.direction 0)
      (c7Mesh.points (mi2Face c7Mesh (c2xFidx 0 0)).i0)
      (c7Mesh.points (mi2Face c7Mesh (c2xFidx 0 0)).i1)
      (c7Mesh.points (mi2Face c7Mesh (c2xFidx 0 0)).i2) (c2xFmask 0 0) ∧
    (mesh_intersect_2 c2xRays c7Mesh c2xFidx c2xFmask).raysOut.mask 0 = false := by
  have hd : mi2Dist ⟨1/2, -(7/10^11), 1⟩ ⟨0, 0, -1⟩ ⟨0, 0, 0⟩ ⟨1, 0, 0⟩ ⟨0, 1, 0⟩
      = 1 := by
    norm_num [mi2Dist, Vec3.dot, Vec3.cross, Vec3.sub_def]
  have hp : mi2Point ⟨1/2, -(7/10^11), 1⟩ ⟨0, 0, -1⟩ ⟨0, 0, 0⟩ ⟨1, 0, 0⟩ ⟨0, 1, 0⟩
      = ⟨1/2, -(7/10^11), 0⟩ := by
    unfold mi2Point
    rw [hd]
    norm_num [Vec3.smul, Vec3.add_def]
  have habs : ∀ q : ℚ, 0 ≤ q → |((q : ℚ) : ℝ)| = ((q : ℚ) : ℝ) := fun q hq =>
    abs_of_nonneg (by exact_mod_cast hq)
  have hA1 : triAreaR (⟨1/2, -(7/10^11), 0⟩ : Vec3) ⟨1, 0, 0⟩ ⟨0, 1, 0⟩
      = ((1/2 + 7/10^11 : ℚ) : ℝ) / 2 := by
    unfold triAreaR
    rw [show Vec3.cross ((⟨1, 0, 0⟩ : Vec3) - ⟨1/2, -(7/10^11), 0⟩)
        ((⟨0, 1, 0⟩ : Vec3) - ⟨1/2, -(7/10^11), 0⟩) = ⟨0, 0, 1/2 + 7/10^11⟩ by
      norm_num [Vec3.cross, Vec3.sub_def]]
    rw [rnorm_z, habs (1/2 + 7/10^11) (by norm_num)]
  have hA2 : triAreaR (⟨1/2, -(7/10^11), 0⟩ : Vec3) ⟨0, 1, 0⟩ ⟨0, 0, 0⟩
      = ((1/2 : ℚ) : ℝ) / 2 := by
    unfold triAreaR
    rw [show Vec3.cross ((⟨0, 1, 0⟩ : Vec3) - ⟨1/2, -(7/10^11), 0⟩)
        ((⟨0, 0, 0⟩ : Vec3) - ⟨1/2, -(7/10^11), 0⟩) = ⟨0, 0, 1/2⟩ by
      norm_num [Vec3.cross, Vec3.sub_def]]
    rw [rnorm_z, habs (1/2) (by norm_num)]
  have hA3 : triAreaR (⟨1/2, -(7/10^11), 0⟩ : Vec3) ⟨0, 0, 0⟩ ⟨1, 0, 0⟩
      = ((7/10^11 : ℚ) : ℝ) / 2 := by
    unfold triAreaR
    rw [show Vec3.cross ((⟨0, 0, 0⟩ : Vec3) - ⟨1/2, -(7/10^11), 0⟩)
        ((⟨1, 0, 0⟩ : Vec3) - ⟨1/2, -(7/10^11), 0⟩) = ⟨0, 0, -(7/10^11)⟩ by
      norm_num [Vec3.cross, Vec3.sub_def]]
    rw [rnorm_z, show ((-(7/10^11) : ℚ) : ℝ) = -((7/10^11 : ℚ) : ℝ) by push_cast; ring,
      abs_neg, habs (7/10^11) (by norm_num)]
  have hA4 : triAreaR (⟨0, 0, 0⟩ : Vec3) ⟨1, 0, 0⟩ ⟨0, 1, 0⟩ = ((1 : ℚ) : ℝ) / 2 := by
    unfold triAreaR
    rw [show Vec3.cross ((⟨1, 0, 0⟩ : Vec3) - ⟨0, 0, 0⟩)
        ((⟨0, 1, 0⟩ : Vec3) - ⟨0, 0, 0⟩) = ⟨0, 0, 1⟩ by
      norm_num [Vec3.cross, Vec3.sub_def]]
    rw [rnorm_z, habs 1 (by norm_num)]
  have hdiffVal : mi2Diff ⟨1/2, -(7/10^11), 1⟩ ⟨0, 0, -1⟩ ⟨0, 0, 0⟩ ⟨1, 0, 0⟩ ⟨0, 1, 0⟩
      = ((1/2 + 7/10^11 : ℚ) : ℝ) + ((1/2 : ℚ) : ℝ) + ((7/10^11 : ℚ) : ℝ)
        - ((1 : ℚ) : ℝ) := by
    unfold mi2Diff
    rw [hp]
    dsimp only
    rw [show Vec3.cross ((⟨1/2, -(7/10^11), 0⟩ : Vec3) - ⟨1, 0, 0⟩)
        ((⟨1/2, -(7/10^11), 0⟩ : Vec3) - ⟨0, 1, 0⟩) = ⟨0, 0, 1/2 + 7/10^11⟩ by
      norm_num [Vec3.cross, Vec3.sub_def]]
    rw [show Vec3.cross ((⟨1/2, -(7/10^11), 0⟩ : Vec3) - ⟨0, 1, 0⟩)
        ((⟨1/2, -(7/10^11), 0⟩ : Vec3) - ⟨0, 0, 0⟩) = ⟨0, 0, 1/2⟩ by
      norm_num [Vec3.cross, Vec3.sub_def]]
    rw [show Vec3.cross ((⟨1/2, -(7/10^11), 0⟩ : Vec3) - ⟨0, 0, 0⟩)
        ((⟨1/2, -(7/10^11), 0⟩ : Vec3) - ⟨1, 0, 0⟩) = ⟨0, 0, -(7/10^11)⟩ by
      norm_num [Vec3.cross, Vec3.sub_def]]
    rw [show Vec3.cross ((⟨0, 0, 0⟩ : Vec3) - ⟨1, 0, 0⟩)
        ((⟨0, 0, 0⟩ : Vec3) - ⟨0, 1, 0⟩) = ⟨0, 0, 1⟩ by
      norm_num [Vec3.cross, Vec3.sub_def]]
    rw [rnorm_z, rnorm_z, rnorm_z, rnorm_z]
    rw [habs (1/2 + 7/10^11) (by norm_num), habs (1/2) (by norm_num),
      show ((-(7/10^11) : ℚ) : ℝ) = -((7/10^11 : ℚ) : ℝ) by push_cast; ring,
      abs_neg, habs (7/10^11) (by norm_num), habs 1 (by norm_num)]
  constructor
  · show specPass2Claim ⟨1/2, -(7/10^11), 1⟩ ⟨0, 0, -1⟩ ⟨0, 0, 0⟩ ⟨1, 0, 0⟩ ⟨0, 1, 0⟩ true
    rw [specPass2Claim_iff]
    refine ⟨rfl, ?_, ?_⟩
    · rw [hd]; norm_num
    · rw [hp, hA1, hA2, hA3, hA4]
      unfold tol2
      push_cast
      norm_num
  · have hnot : ¬ ∃ i, i < 8 ∧ mi2TestAt c2xRays c7Mesh c2xFidx c2xFmask i 0 := by
      rintro ⟨i, _, htest⟩
      have htest2 : mi2Test ⟨1/2, -(7/10^11), 1⟩ ⟨0, 0, -1⟩ ⟨0, 0, 0⟩ ⟨1, 0, 0⟩
          ⟨0, 1, 0⟩ (c2xFmask i 0) := htest
      obtain ⟨h1, -, -, -⟩ := htest2
      rw [hdiffVal] at h1
      unfold tol2 at h1
      push_cast at h1
      norm_num at h1
    have hmaskEq : (mesh_intersect_2 c2xRays c7Mesh c2xFidx c2xFmask).raysOut.mask 0
        = (c2xRays.mask 0 && @decide _ (mi2ExDec c2xRays c7Mesh c2xFidx c2xFmask 0)) :=
      rfl
    rw [hmaskEq, @decide_eq_false _ (mi2ExDec c2xRays c7Mesh c2xFidx c2xFmask 0) hnot, Bool.and_false]

/-- Witness for the amended C2 theorem at the concrete one-ray,
one-candidate input. -/
theorem c2_candidate_test_witness :
    0 < c2xRays.num ∧
    (((mesh_intersect_2 c2xRays c7Mesh c2xFidx c2xFmask).raysOut.mask 0 = true ↔
      (c2xRays.mask 0 = true ∧ ∃ i, i < 8 ∧
        specPass2 (c2xRays.origin 0) (c2xRays.direction 0)
          (c7Mesh.points (mi2Face c7Mesh (c2xFidx i 0)).i0)
          (c7Mesh.points (mi2Face c7Mesh (c2xFidx i 0)).i1)
          (c7Mesh.points (mi2Face c7Mesh (c2xFidx i 0)).i2) (c2xFmask i 0))) ∧
    (∀ i, i < 8 →
      specPass2 (c2xRays.origin 0) (c2xRays.direction 0)
        (c7Mesh.points (mi2Face c7Mesh (c2xFidx i 0)).i0)
        (c7Mesh.points (mi2Face c7Mesh (c2xFidx i 0)).i1)
        (c7Mesh.points (mi2Face c7Mesh (c2xFidx i 0)).i2) (c2xFmask i 0) →
      (∀ i2, i2 < i →
        ¬ specPass2 (c2xRays.origin 0) (c2xRays.direction 0)
          (c7Mesh.points (mi2Face c7Mesh (c2xFidx i2 0)).i0)
          (c7Mesh.points (mi2Face c7Mesh (c2xFidx i2 0)).i1)
          (c7Mesh.points (mi2Face c7Mesh (c2xFidx i2 0)).i2) (c2xFmask i2 0)) →
      c2xRays.mask 0 = true →
      (mesh_intersect_2 c2xRays c7Mesh c2xFidx c2xFmask).hits 0 = c2xFidx i 0 ∧
      (mesh_intersect_2 c2xRays c7Mesh c2xFidx c2xFmask).X 0
        = mi2PointAt c2xRays c7Mesh c2xFidx i 0)) :=
  ⟨by decide, c2_candidate_test c2xRays c7Mesh c2xFidx c2xFmask 0 (by decide)⟩

/-- C4: the interpolated surface normal is not a unit vector: the
source multiplies each interpolated normal by its norm
(`np.einsum('i,ij->ij', np.linalg.norm(normals, axis=1), normals)`)
instead of dividing by it, contradicting both the spec and the
source's own `normalize` profiler label.  With interpolators returning
the (nonzero) normal (2, 0, 0), the produced normal is (4, 0, 0), of
norm 4, not 1. -/
theorem c4_interpolated_normal_not_unit :
    ((mesh_interpolate (fun _ => ⟨0, 0, 0⟩) (fun _ _ => 0) (fun _ _ => 2)
        (fun _ _ => 0) (fun _ _ => 0)).2 0 = (⟨4, 0, 0⟩ : Vec3R)) ∧
    rnormR ⟨4, 0, 0⟩ = 4 ∧ (4 : ℝ) ≠ 1 := by
  have h2 : Vec3.rnorm ⟨2, 0, 0⟩ = 2 := by
    unfold Vec3.rnorm
    push_cast
    rw [show (2 : ℝ) ^ 2 + 0 ^ 2 + 0 ^ 2 = 2 ^ 2 by ring]
    exact Real.sqrt_sq (by norm_num)
  refine ⟨?_, ?_, by norm_num⟩
  · show (⟨Vec3.rnorm ⟨2, 0, 0⟩ * ((2 : ℚ) : ℝ), Vec3.rnorm ⟨2, 0, 0⟩ * ((0 : ℚ) : ℝ),
      Vec3.rnorm ⟨2, 0, 0⟩ * ((0 : ℚ) : ℝ)⟩ : Vec3R) = ⟨4, 0, 0⟩
    rw [h2]
    simp only [Vec3R.mk.injEq]
    norm_num
  · unfold rnormR
    rw [show (4 : ℝ) ^ 2 + 0 ^ 2 + 0 ^ 2 = 4 ^ 2 by ring]
    exact Real.sqrt_sq (by norm_num)

/-- On a fully active batch the exhaustive test returns a result. -/
theorem mesh_intersect_1_ok (rays : RayBatch) (mesh : Mesh)
    (hact : ∀ j, j < rays.num → rays.mask j = true) :
    ∃ r1, mesh_intersect_1 rays mesh = Except.ok r1 := by
  have hc : activeCount rays = rays.num := activeCount_eq_num rays hact
  exact ⟨_, by unfold mesh_intersect_1; rw [if_neg (fun hcon => hcon.2.1 hc)]⟩

/-- The candidate-restricted test only narrows the mask, so the active
count can only drop. -/
theorem mi2_activeCount_le (rays : RayBatch) (mesh : Mesh)
    (fidx : ℕ → ℕ → ℕ) (fmask : ℕ → ℕ → Bool) :
    activeCount (mesh_intersect_2 rays mesh fidx fmask).raysOut ≤ activeCount rays := by
  unfold activeCount
  have hnum : (mesh_intersect_2 rays mesh fidx fmask).raysOut.num = rays.num := rfl
  rw [hnum]
  apply List.countP_mono_left
  intro a _ h
  have h2 : (rays.mask a && @decide _ (mi2ExDec rays mesh fidx fmask a)) = true := h
  simp only [Bool.and_eq_true] at h2
  exact h2.1

/-- C8: in the refinement path of `trace`, on a batch fully active on
entry, the number of rays reported lost equals the count of rays
active after the coarse exhaustive test minus the count active after
the fine candidate-restricted test, that number is non-negative, the
warning flag is raised exactly when it is nonzero, and the call
completes normally with the fine result. -/
theorem c8_refinement_loss (rays : RayBatch) (coarse fine : Mesh)
    (nearQuery : Vec3 → ℕ) (pIdx : ℕ → ℕ → ℕ) (pMask : ℕ → ℕ → Bool)
    (hact : ∀ j, j < rays.num → rays.mask j = true) :
    ∃ r1 : IResult, mesh_intersect_1 rays coarse = Except.ok r1 ∧
      traceRefine rays coarse fine nearQuery pIdx pMask = Except.ok
        (mesh_intersect_2 r1.raysOut fine
            (fun i j => pIdx i (nearQuery (r1.X j)))
            (fun i j => pMask i (nearQuery (r1.X j))),
          (activeCount r1.raysOut : ℤ)
            - (activeCount (mesh_intersect_2 r1.raysOut fine
                (fun i j => pIdx i (nearQuery (r1.X j)))
                (fun i j => pMask i (nearQuery (r1.X j)))).raysOut : ℤ),
          decide ((activeCount r1.raysOut : ℤ)
            - (activeCount (mesh_intersect_2 r1.raysOut fine
                (fun i j => pIdx i (nearQuery (r1.X j)))
                (fun i j => pMask i (nearQuery (r1.X j)))).raysOut : ℤ) ≠ 0)) ∧
      0 ≤ (activeCount r1.raysOut : ℤ)
            - (activeCount (mesh_intersect_2 r1.raysOut fine
                (fun i j => pIdx i (nearQuery (r1.X j)))
                (fun i j => pMask i (nearQuery (r1.X j)))).raysOut : ℤ) ∧
      ((decide ((activeCount r1.raysOut : ℤ)
            - (activeCount (mesh_intersect_2 r1.raysOut fine
                (fun i j => pIdx i (nearQuery (r1.X j)))
                (fun i j => pMask i (nearQuery (r1.X j)))).raysOut : ℤ) ≠ 0)) = true
        ↔ (activeCount r1.raysOut : ℤ)
            - (activeCount (mesh_intersect_2 r1.raysOut fine
                (fun i j => pIdx i (nearQuery (r1.X j)))
                (fun i j => pMask i (nearQuery (r1.X j)))).raysOut : ℤ) ≠ 0) := by
  obtain ⟨r1, hok⟩ := mesh_intersect_1_ok rays coarse hact
  refine ⟨r1, hok, ?_, ?_, ?_⟩
  · unfold traceRefine
    rw [hok]
  · have hle := mi2_activeCount_le r1.raysOut fine
      (fun i j => pIdx i (nearQuery (r1.X j)))
      (fun i j => pMask i (nearQuery (r1.X j)))
    omega
  · simp only [decide_eq_true_eq]

/-- Witness for the C8 theorem at the concrete two-ray fully active
batch over the unit-triangle mesh used as both coarse and fine mesh. -/
theorem c8_refinement_loss_witness :
    (∀ j, j < c7Rays.num → c7Rays.mask j = true) ∧
    (∃ r1 : IResult, mesh_intersect_1 c7Rays c7Mesh = Except.ok r1 ∧
      traceRefine c7Rays c7Mesh c7Mesh (fun _ => 0) (fun _ _ => 0) (fun _ _ => false)
        = Except.ok
        (mesh_intersect_2 r1.raysOut c7Mesh
            (fun i j => (fun _ _ => (0 : ℕ)) i ((fun _ => (0 : ℕ)) (r1.X j)))
            (fun i j => (fun _ _ => false) i ((fun _ => (0 : ℕ)) (r1.X j))),
          (activeCount r1.raysOut : ℤ)
            - (activeCount (mesh_intersect_2 r1.raysOut c7Mesh
                (fun i j => (fun _ _ => (0 : ℕ)) i ((fun _ => (0 : ℕ)) (r1.X j)))
                (fun i j => (fun _ _ => false) i ((fun _ => (0 : ℕ)) (r1.X j)))).raysOut : ℤ),
          decide ((activeCount r1.raysOut : ℤ)
            - (activeCount (mesh_intersect_2 r1.raysOut c7Mesh
                (fun i j => (fun _ _ => (0 : ℕ)) i ((fun _ => (0 : ℕ)) (r1.X j)))
                (fun i j => (fun _ _ => false) i ((fun _ => (0 : ℕ)) (r1.X j)))).raysOut : ℤ) ≠ 0)) ∧
      0 ≤ (activeCount r1.raysOut : ℤ)
            - (activeCount (mesh_intersect_2 r1.raysOut c7Mesh
                (fun i j => (fun _ _ => (0 : ℕ)) i ((fun _ => (0 : ℕ)) (r1.X j)))
                (fun i j => (fun _ _ => false) i ((fun _ => (0 : ℕ)) (r1.X j)))).raysOut : ℤ) ∧
      ((decide ((activeCount r1.raysOut : ℤ)
            - (activeCount (mesh_intersect_2 r1.raysOut c7Mesh
                (fun i j => (fun _ _ => (0 : ℕ)) i ((fun _ => (0 : ℕ)) (r1.X j)))
                (fun i j => (fun _ _ => false) i ((fun _ => (0 : ℕ)) (r1.X j)))).raysOut : ℤ) ≠ 0)) = true
        ↔ (activeCount r1.raysOut : ℤ)
            - (activeCount (mesh_intersect_2 r1.raysOut c7Mesh
                (fun i j => (fun _ _ => (0 : ℕ)) i ((fun _ => (0 : ℕ)) (r1.X j)))
                (fun i j => (fun _ _ => false) i ((fun _ => (0 : ℕ)) (r1.X j)))).raysOut : ℤ) ≠ 0)) :=
  ⟨by decide, c8_refinement_loss c7Rays c7Mesh c7Mesh (fun _ => 0) (fun _ _ => 0)
    (fun _ _ => false) (by decide)⟩

/-- Witness for C10: empty superclass defaults and a user entry
supplying coarse points under the correctly spelled key. -/
theorem c10_misspelled_key_witness :
    ((fun _ => none : Config) "mesh_course_points" = none) ∧
    ((fun _ => none : Config) "mesh_refine" = none) ∧
    (∀ kv ∈ [("mesh_coarse_points", CVal.vData)],
      kv.1 ≠ "mesh_course_points" ∧ kv.1 ≠ "mesh_refine") ∧
    check_param (applyUpdates (get_default_config (fun _ => none))
        [("mesh_coarse_points", CVal.vData)])
      = Except.error ("KeyError: " ++ "mesh_course_points") :=
  ⟨rfl, rfl, by decide,
    c10_misspelled_key (fun _ => none) [("mesh_coarse_points", CVal.vData)]
      rfl rfl (by decide)⟩

end Xicsrt
